import Mathlib

/-!
# Verification of the SQL tabular-storage driver (`jtssql/storage.py`)

A shallow embedding of the repository's `Storage` class: the logical/native
type mapping, schema conversion and restoration, the cached table listing
with its configured name prefix, the table lifecycle (`check`, `create`,
`delete`, `describe`) and the batch `write` path.  The external SQL store is
modelled as an explicit value threaded through the operations; the
`Storage` handle's mutable attributes (notably the `__tables` cache) are
threaded likewise.  Components the repository only exercises through its
tests (the upsert engine with update keys and auto-increment identities,
and the keyed-row input form) are modelled from the specification and are
marked as such in their doc comments.
-/

set_option autoImplicit false

/-- Python `s.startswith(pre)`, on the character data of the strings. -/
def pyStartswith (s pre : String) : Bool :=
  pre.data.isPrefixOf s.data

/-- Python `s.replace(old, '', 1)` on character lists: removes the first
occurrence of `old` anywhere in `s` (a no-op when `old` is empty, matching
Python's behaviour of inserting the empty replacement). -/
def listReplaceFirst : List Char → List Char → List Char
  | [], _ => []
  | c :: rest, old =>
    if old.isPrefixOf (c :: rest) then (c :: rest).drop old.length
    else c :: listReplaceFirst rest old

/-- Python `s.replace(old, '', 1)` on `String`. -/
def pyReplaceFirst (s old : String) : String :=
  ⟨listReplaceFirst s.data old.data⟩

/-- The spec's reading of the listing transformation: remove the leading
name prefix (drop exactly its length from the front). -/
def stripLead (pre s : String) : String :=
  ⟨s.data.drop pre.data.length⟩

theorem listReplaceFirst_of_isPrefixOf (s old : List Char) (h : old.isPrefixOf s) :
    listReplaceFirst s old = s.drop old.length := by
  cases s with
  | nil =>
    cases old with
    | nil => rfl
    | cons c cs => simp [List.isPrefixOf] at h
  | cons c rest => simp [listReplaceFirst, h]

/-- Under the `startswith` guard, Python's `replace(old, '', 1)` is exactly
"remove the leading prefix". -/
theorem pyReplaceFirst_eq_stripLead (s pre : String) (h : pyStartswith s pre = true) :
    pyReplaceFirst s pre = stripLead pre s := by
  unfold pyReplaceFirst stripLead
  rw [listReplaceFirst_of_isPrefixOf _ _ h]

/-! ## Values and the portable-schema casting collaborator -/

/-- A raw or cast cell value.  Numbers (`Float` columns) are modelled with
an abstract integer payload: no claim depends on numeric arithmetic, only
on whether a cast succeeds. -/
inductive Value
  | vnull
  | vstr (s : String)
  | vint (n : Int)
  | vnum (n : Int)
  | vbool (b : Bool)
  deriving DecidableEq, Repr

/-- Decimal digit accumulation for the integer parser below. -/
def digitsToNat? : List Char → Nat → Option Nat
  | [], acc => some acc
  | c :: cs, acc =>
    if c.isDigit then digitsToNat? cs (acc * 10 + (c.toNat - 48)) else none

/-- Python's `int(s)` as the casting library applies it: an optional sign
followed by at least one decimal digit. -/
def parseInt? (s : String) : Option Int :=
  match s.data with
  | [] => none
  | '-' :: cs =>
    if cs = [] then none else (digitsToNat? cs 0).map (fun n => -(n : Int))
  | cs => (digitsToNat? cs 0).map (fun n => (n : Int))

/-- Modelled from the spec: the portable-schema casting collaborator (§6,
`jsontableschema`'s `SchemaModel.convert_row`), which this core invokes but
does not implement.  Casts one raw value to one logical type, failing with
a value-cast error otherwise. -/
def castValue (t : String) (v : Value) : Except String Value :=
  match t, v with
  | "string", .vstr s => .ok (.vstr s)
  | "integer", .vint n => .ok (.vint n)
  | "integer", .vstr s =>
    match parseInt? s with
    | some n => .ok (.vint n)
    | none => .error ("Value " ++ s ++ " is not castable to integer")
  | "number", .vnum n => .ok (.vnum n)
  | "number", .vint n => .ok (.vnum n)
  | "boolean", .vbool b => .ok (.vbool b)
  | _, _ => .error "Value is not castable"

/-! ## Schemas and the type mapping -/

/-- One field of a JSON Table Schema descriptor: the `create`/`describe`
paths read exactly the `name` and `type` entries. -/
structure SField where
  name : String
  type : String
  deriving DecidableEq, Repr

/-- A JSON Table Schema descriptor: `{'fields': [...]}`. -/
structure Schema where
  fields : List SField
  deriving DecidableEq, Repr

/-- A native SQLAlchemy column type tag.  The generic types `Text()`,
`Integer()`, `Float()`, `Boolean()` used by `__convert_schema` compile to
the SQL types `TEXT`, `INTEGER`, `FLOAT`, `BOOLEAN`, which are the classes
the store's reflection reports and `__restore_schema` keys on; one tag
stands for each such column type.  `DATE` and `VARCHAR` are
representative reflected types outside the mapping. -/
inductive SQLType
  | TEXT
  | INTEGER
  | FLOAT
  | BOOLEAN
  | DATE
  | VARCHAR
  deriving DecidableEq, Repr

/-- Rendering of a native type tag, as `'%s' % column.type` prints it. -/
def sqlTypeName : SQLType → String
  | .TEXT => "TEXT"
  | .INTEGER => "INTEGER"
  | .FLOAT => "FLOAT"
  | .BOOLEAN => "BOOLEAN"
  | .DATE => "DATE"
  | .VARCHAR => "VARCHAR"

/-- The forward mapping dictionary of `Storage.__convert_schema`:
`{'string': Text(), 'integer': Integer(), 'number': Float(),
'boolean': Boolean()}`; a lookup outside it is a `KeyError`. -/
def convert_type (t : String) : Option SQLType :=
  match t with
  | "string" => some .TEXT
  | "integer" => some .INTEGER
  | "number" => some .FLOAT
  | "boolean" => some .BOOLEAN
  | _ => none

/-- The reverse mapping dictionary of `Storage.__restore_schema`:
`{TEXT: 'string', INTEGER: 'integer', FLOAT: 'number',
BOOLEAN: 'boolean'}`; a lookup outside it is a `KeyError`. -/
def restore_type (n : SQLType) : Option String :=
  match n with
  | .TEXT => some "string"
  | .INTEGER => some "integer"
  | .FLOAT => some "number"
  | .BOOLEAN => some "boolean"
  | _ => none

/-- The four logical types of the closed mapping. -/
def supportedTypes : List String :=
  ["string", "integer", "number", "boolean"]

/-- `Except`-valued map over a list, modelling a Python `for` loop that
appends one result per element and aborts on the first raised exception. -/
def mapME {α β : Type} (f : α → Except String β) : List α → Except String (List β)
  | [] => .ok []
  | a :: as =>
    match f a with
    | .error e => .error e
    | .ok b =>
      match mapME f as with
      | .error e => .error e
      | .ok bs => .ok (b :: bs)

/-- `Storage.__convert_schema`: map each field to a named column through
the forward mapping, raising `TypeError('Type %s is not supported')` on the
first field whose type is outside it. -/
def convert_schema (sch : Schema) : Except String (List (String × SQLType)) :=
  mapME (fun f =>
    match convert_type f.type with
    | some n => .ok (f.name, n)
    | none => .error ("Type " ++ f.type ++ " is not supported")) sch.fields

/-- `Storage.__restore_schema`: map each reflected column back to a field
through the reverse mapping, raising `TypeError('Type %s is not
supported')` on the first column whose native type is outside it. -/
def restore_schema (cols : List (String × SQLType)) : Except String Schema :=
  match mapME (fun c =>
    match restore_type c.2 with
    | some t => .ok (SField.mk c.1 t)
    | none => .error ("Type " ++ sqlTypeName c.2 ++ " is not supported")) cols with
  | .error e => .error e
  | .ok fields => .ok (Schema.mk fields)

/-! ## The external store and the `Storage` handle -/

/-- One table of the external relational store: its store-visible name, its
reflected columns (name and native type, in column order) and its rows. -/
structure DBTable where
  name : String
  columns : List (String × SQLType)
  rowsData : List (List (String × Value))
  deriving DecidableEq, Repr

/-- The external relational store reachable through the engine: the tables
it reports, in listing order. -/
structure Store where
  tables : List DBTable
  deriving DecidableEq, Repr

/-- `engine.table_names(schema=...)`: the store-visible table names. -/
def tableNames (st : Store) : List String :=
  st.tables.map (fun tb => tb.name)

/-- The `Storage` handle's attributes: `__engine` (kept as its textual
rendering, which is all the code reads from it outside store calls),
`__dbschema`, the configured name prefix `__prefix` (`pfx` here), and the
`__tables` listing cache. -/
structure Storage where
  engine : String
  dbschema : Option String
  pfx : String
  tablesCache : Option (List String)
  deriving DecidableEq, Repr

/-- `Storage.__repr__`: `'Storage <{engine}/{dbschema}>'`; a `None`
dbschema prints as `None`, as Python's `format` renders it. -/
def reprStorage (sg : Storage) : String :=
  "Storage <" ++ sg.engine ++ "/" ++
    (match sg.dbschema with
     | some d => d
     | none => "None") ++ ">"

/-- The `Storage.tables` property: returns the cached listing when set;
otherwise collects the store's table names that start with the configured
prefix, each with the prefix removed by `replace(prefix, '', 1)`, and
caches that list.  Returns the listing together with the updated handle. -/
def tablesList (sg : Storage) (st : Store) : List String × Storage :=
  match sg.tablesCache with
  | some ts => (ts, sg)
  | none =>
    let ts := ((tableNames st).filter (fun n => pyStartswith n sg.pfx)).map
      (fun n => pyReplaceFirst n sg.pfx)
    (ts, { sg with tablesCache := some ts })

/-- `Storage.check`: membership of the logical name in the listing. -/
def check (sg : Storage) (st : Store) (t : String) : Bool × Storage :=
  ((tablesList sg st).1.contains t, (tablesList sg st).2)

/-- `Storage.create`: raise `RuntimeError('Table "%s" is already
existent.' % table)` when the table exists; convert the schema (which may
raise `TypeError`); otherwise issue the CREATE for `prefix + table` and
drop the listing cache.  The third component is the raised message, `none`
on success; on an error the store comes back unmodified. -/
def create (sg : Storage) (st : Store) (t : String) (sch : Schema) :
    Storage × Store × Option String :=
  if (check sg st t).1 then
    ((check sg st t).2, st, some ("Table \"" ++ t ++ "\" is already existent."))
  else
    match convert_schema sch with
    | .error e => ((check sg st t).2, st, some e)
    | .ok cols =>
      ({ (check sg st t).2 with tablesCache := none },
       { st with tables := st.tables ++ [DBTable.mk (sg.pfx ++ t) cols []] },
       none)

/-- `Storage.delete`: raise `RuntimeError('Table "%s" is not existent.'
% self)` — note the interpolation of `self`, not `table` — when the table
is missing; otherwise issue the DROP for `prefix + table` and drop the
listing cache. -/
def delete (sg : Storage) (st : Store) (t : String) :
    Storage × Store × Option String :=
  if (check sg st t).1 then
    ({ (check sg st t).2 with tablesCache := none },
     { st with tables := st.tables.filter (fun tb => tb.name ≠ sg.pfx ++ t) },
     none)
  else ((check sg st t).2, st, some ("Table \"" ++ reprStorage sg ++ "\" is not existent."))

/-- Reflection of a store table (`Table(name, MetaData(), autoload=True,
autoload_with=engine)`): the reflected table, or `none` when the store has
no such table (SQLAlchemy's `NoSuchTableError`). -/
def reflectTable (st : Store) (nm : String) : Option DBTable :=
  st.tables.find? (fun tb => tb.name = nm)

/-- `Storage.describe`: reflect `prefix + table` from the store and restore
its schema; reflection of a missing table raises `NoSuchTableError`. -/
def describe (sg : Storage) (st : Store) (t : String) : Except String Schema :=
  match reflectTable st (sg.pfx ++ t) with
  | none => .error ("Table " ++ sg.pfx ++ t ++ " is not found")
  | some tb => restore_schema tb.columns

/-! ## The write path -/

/-- Modelled from the spec: `SchemaModel(...).convert_row(*row)` — the
casting collaborator applied positionally, each value cast against the
schema's field in the same position (§4.5: positional input is zipped
against schema field order). -/
def convert_row (sch : Schema) (vals : List Value) : Except String (List Value) :=
  if vals.length = sch.fields.length then
    mapME (fun p => castValue p.1.type p.2) (sch.fields.zip vals)
  else .error "Row length does not match schema"

/-- The keyed-record construction inside `Storage.write`:
`rdata[field['name']] = row[index]` over `enumerate(model.fields)`. -/
def rowToKeyed (sch : Schema) (cast : List Value) : List (String × Value) :=
  (sch.fields.map SField.name).zip cast

/-- The casting loop of `Storage.write`: build `cdata` by casting every
row of the batch, aborting on the first cast failure. -/
def castBatch (sch : Schema) (data : List (List Value)) :
    Except String (List (List (String × Value))) :=
  mapME (fun row =>
    match convert_row sch row with
    | .error e => .error e
    | .ok cast => .ok (rowToKeyed sch cast)) data

/-- `INSERT` execution: append the records to the named table's rows. -/
def storeInsert (st : Store) (nm : String) (rows : List (List (String × Value))) : Store :=
  { st with tables := st.tables.map (fun tb =>
      if tb.name = nm then { tb with rowsData := tb.rowsData ++ rows } else tb) }

/-- `Storage.write`: describe the table, cast the whole batch into `cdata`,
and only then execute one INSERT of all records; any error leaves the
store untouched. -/
def write (sg : Storage) (st : Store) (t : String) (data : List (List Value)) :
    Store × Option String :=
  match describe sg st t with
  | .error e => (st, some e)
  | .ok sch =>
    match castBatch sch data with
    | .error e => (st, some e)
    | .ok cdata => (storeInsert st (sg.pfx ++ t) cdata, none)

/-! ## RowCodec: positional and keyed raw rows -/

/-- A raw incoming row: a positional sequence of values ordered per schema
field order, or a keyed mapping from field name to raw value. -/
inductive RawRow
  | positional (vals : List Value)
  | keyed (fs : List (String × Value))
  deriving DecidableEq, Repr

/-- Dictionary lookup in a keyed record (first binding wins). -/
def lookupVal (fs : List (String × Value)) (n : String) : Option Value :=
  (fs.find? (fun p => p.1 = n)).map Prod.snd

/-- The RowCodec (§4.5).  The positional branch is `Storage.write`'s own
pipeline: cast the values positionally, then key them by field name in
schema order.  The keyed branch is Modelled from the spec: "accepts either
positional or keyed raw input" — the keyed input form is exercised only by
the repository's tests (`keyed=True`), not by code under `src/`; per the
spec each schema field's value is looked up by name and cast. -/
def castRow (sch : Schema) : RawRow → Except String (List (String × Value))
  | .positional vals =>
    match convert_row sch vals with
    | .error e => .error e
    | .ok cast => .ok (rowToKeyed sch cast)
  | .keyed fs =>
    mapME (fun f =>
      match lookupVal fs f.name with
      | none => .error ("Field " ++ f.name ++ " is missing")
      | some v =>
        match castValue f.type v with
        | .error e => .error e
        | .ok cv => .ok (f.name, cv)) sch.fields

/-! ## The upsert engine

Modelled from the spec (§4.6): the upsert write path — `write` with
`update_keys` and an optional auto-increment identity column — exists in
this repository only through its tests (`test_storage_update`); the code
under `src/` has no such path, so the engine below follows the
specification's algorithm. -/

/-- Per-row outcome of the upsert write path, as the tests read it
(`i.updated`, `i.updated_id`). -/
structure WrittenRowInfo where
  updated : Bool
  updated_id : Option Nat
  deriving DecidableEq, Repr

/-- A stored row: its cast keyed record and, when auto-increment is
configured, its assigned identity value. -/
structure StoredRow where
  fields : List (String × Value)
  rid : Option Nat
  deriving DecidableEq, Repr

/-- Modelled from the spec: the upsert engine's view of one table — its
stored rows and the monotonic in-memory identity counter seeded from the
table's current maximum identity (§4.6 step 1). -/
structure UpsertState where
  rows : List StoredRow
  counter : Nat
  deriving DecidableEq, Repr

/-- Modelled from the spec (§4.6 step 1): the seed of the identity
counter, the table's current maximum identity value. -/
def seedCounter (rows : List StoredRow) : Nat :=
  (rows.filterMap StoredRow.rid).foldr max 0

/-- Modelled from the spec (§4.6 step 2): the projection of a cast record
onto the KeySet fields. -/
def keyProj (keys : List String) (r : List (String × Value)) : List (Option Value) :=
  keys.map (lookupVal r)

/-- Modelled from the spec (§4.6 step 3): the equality lookup scoped to
the KeySet columns — the first stored row with the same key projection. -/
def findMatch (keys : List String) (rows : List StoredRow)
    (r : List (String × Value)) : Option StoredRow :=
  rows.find? (fun sr => keyProj keys sr.fields = keyProj keys r)

/-- Modelled from the spec (§4.6 step 3): update of the remaining
(non-key) fields of a matching stored row from the incoming record. -/
def updateNonKey (keys : List String) (incoming : List (String × Value))
    (sr : StoredRow) : StoredRow :=
  { sr with fields := sr.fields.map (fun p =>
      if keys.contains p.1 then p
      else
        match lookupVal incoming p.1 with
        | some v => (p.1, v)
        | none => p) }

/-- Modelled from the spec (§4.6 steps 3-4): process one cast incoming
row.  A key match updates the matching stored row(s) in place and reports
`updated=true` with the existing identity; otherwise the counter is
incremented, the row is inserted with the newly assigned identity, and the
outcome reports `updated=false` with that identity.  Identities are
reported (and stored) only when auto-increment is configured. -/
def upsertRow (keys : List String) (auto : Bool) (st : UpsertState)
    (r : List (String × Value)) : UpsertState × WrittenRowInfo :=
  match findMatch keys st.rows r with
  | some sr =>
    ({ st with rows := st.rows.map (fun sr' =>
        if keyProj keys sr'.fields = keyProj keys r then updateNonKey keys r sr' else sr') },
     WrittenRowInfo.mk true (if auto then sr.rid else none))
  | none =>
    (UpsertState.mk
      (st.rows ++ [StoredRow.mk r (if auto then some (st.counter + 1) else none)])
      (st.counter + 1),
     WrittenRowInfo.mk false (if auto then some (st.counter + 1) else none))

/-- Modelled from the spec (§4.6 step 5): the batch upsert — one outcome
per input row, in input order, each row reconciled against the store state
left by the rows before it. -/
def upsertBatch (keys : List String) (auto : Bool) (st : UpsertState) :
    List (List (String × Value)) → UpsertState × List WrittenRowInfo
  | [] => (st, [])
  | r :: rs =>
    let step := upsertRow keys auto st r
    let rest := upsertBatch keys auto step.1 rs
    (rest.1, step.2 :: rest.2)

/-- The identity values assigned to the inserted (`updated=false`) rows of
a batch, in outcome order. -/
def insertedIds (outs : List WrittenRowInfo) : List Nat :=
  outs.filterMap (fun o => if o.updated then none else o.updated_id)

/-! ## General lemmas -/

theorem mapME_length {α β : Type} (f : α → Except String β) :
    ∀ (l : List α) (bs : List β), mapME f l = .ok bs → bs.length = l.length := by
  intro l
  induction l with
  | nil => intro bs h; simp [mapME] at h; simp [← h]
  | cons a as ih =>
    intro bs h
    simp only [mapME] at h
    cases hfa : f a with
    | error e => rw [hfa] at h; exact absurd h (by simp)
    | ok b =>
      rw [hfa] at h
      cases hrest : mapME f as with
      | error e => rw [hrest] at h; exact absurd h (by simp)
      | ok bs' =>
        rw [hrest] at h
        cases h
        simp [ih bs' hrest]

theorem mapME_get {α β : Type} (f : α → Except String β) :
    ∀ (l : List α) (bs : List β), mapME f l = .ok bs →
      ∀ (i : Nat) (h₁ : i < l.length) (h₂ : i < bs.length),
        f (l.get ⟨i, h₁⟩) = .ok (bs.get ⟨i, h₂⟩) := by
  intro l
  induction l with
  | nil => intro bs _ i h₁; exact absurd h₁ (by simp)
  | cons a as ih =>
    intro bs h i h₁ h₂
    simp only [mapME] at h
    cases hfa : f a with
    | error e => rw [hfa] at h; exact absurd h (by simp)
    | ok b =>
      rw [hfa] at h
      cases hrest : mapME f as with
      | error e => rw [hrest] at h; exact absurd h (by simp)
      | ok bs' =>
        rw [hrest] at h
        cases h
        cases i with
        | zero => simpa using hfa
        | succ j =>
          exact ih bs' hrest j (Nat.lt_of_succ_lt_succ h₁) (Nat.lt_of_succ_lt_succ h₂)

theorem mapME_error_of_mem {α β : Type} (f : α → Except String β) :
    ∀ (l : List α) (a : α) (e : String), a ∈ l → f a = .error e →
      ∃ e', mapME f l = .error e' := by
  intro l
  induction l with
  | nil => intro a e ha; exact absurd ha (by simp)
  | cons b bs ih =>
    intro a e ha he
    simp only [mapME]
    cases hfb : f b with
    | error e' => exact ⟨e', rfl⟩
    | ok v =>
      rcases List.mem_cons.mp ha with rfl | hmem
      · rw [hfb] at he; exact absurd he (by simp)
      · rcases ih a e hmem he with ⟨e', h'⟩
        rw [h']
        exact ⟨e', rfl⟩

theorem mapME_error_of_find {α β : Type} (f : α → Except String β) (p : α → Bool)
    (msg : α → String)
    (hmatch : ∀ a, p a = true → f a = .error (msg a))
    (hok : ∀ a, p a = false → ∃ b, f a = .ok b) :
    ∀ (l : List α) (a₀ : α), l.find? p = some a₀ → mapME f l = .error (msg a₀) := by
  intro l
  induction l with
  | nil => intro a₀ h; exact absurd h (by simp)
  | cons a as ih =>
    intro a₀ h
    simp only [mapME]
    cases hpa : p a with
    | true =>
      rw [List.find?_cons_of_pos _ hpa] at h
      injection h with h
      subst h
      rw [hmatch a hpa]
    | false =>
      rw [List.find?_cons_of_neg _ (by simp [hpa])] at h
      rcases hok a hpa with ⟨b, hb⟩
      rw [hb, ih a₀ h]

theorem pyStartswith_append (p x : String) : pyStartswith (p ++ x) p = true := by
  simp [pyStartswith, String.data_append, List.isPrefixOf_iff_prefix, List.prefix_append]

theorem stripLead_append (p x : String) : stripLead p (p ++ x) = x := by
  simp [stripLead, String.data_append, List.drop_left]

theorem append_stripLead_of_startswith (p n : String) (h : pyStartswith n p = true) :
    p ++ stripLead p n = n := by
  rcases (List.isPrefixOf_iff_prefix.mp h : p.data <+: n.data) with ⟨rest, hrest⟩
  have hdata : (p ++ stripLead p n).data = n.data := by
    simp [String.data_append, stripLead, ← hrest, List.drop_left]
  exact String.ext hdata

/-- Membership in the fetched listing: a logical name is listed exactly
when the store has a table named `pfx ++ name`. -/
theorem mem_listing_iff (p : String) (names : List String) (x : String) :
    x ∈ (names.filter (fun n => pyStartswith n p)).map (fun n => pyReplaceFirst n p)
      ↔ p ++ x ∈ names := by
  constructor
  · rintro hx
    rcases List.mem_map.mp hx with ⟨n, hn, hstrip⟩
    rcases List.mem_filter.mp hn with ⟨hmem, hpre⟩
    rw [pyReplaceFirst_eq_stripLead n p hpre] at hstrip
    rw [← hstrip, append_stripLead_of_startswith p n hpre]
    exact hmem
  · intro hmem
    refine List.mem_map.mpr ⟨p ++ x, List.mem_filter.mpr ⟨hmem, pyStartswith_append p x⟩, ?_⟩
    rw [pyReplaceFirst_eq_stripLead _ _ (pyStartswith_append p x), stripLead_append]

theorem tablesList_snd_pfx (sg : Storage) (st : Store) :
    (tablesList sg st).2.pfx = sg.pfx := by
  cases h : sg.tablesCache <;> simp [tablesList, h]

theorem tablesList_snd_cache (sg : Storage) (st : Store) :
    (tablesList sg st).2.tablesCache = some (tablesList sg st).1 := by
  cases h : sg.tablesCache <;> simp [tablesList, h]

theorem tablesList_fst_of_none (sg : Storage) (st : Store) (h : sg.tablesCache = none) :
    (tablesList sg st).1 =
      ((tableNames st).filter (fun n => pyStartswith n sg.pfx)).map
        (fun n => pyReplaceFirst n sg.pfx) := by
  simp [tablesList, h]

theorem tablesList_of_some (sg : Storage) (st : Store) (l : List String)
    (h : sg.tablesCache = some l) : tablesList sg st = (l, sg) := by
  simp [tablesList, h]

theorem check_fst_iff (sg : Storage) (st : Store) (t : String) (h : sg.tablesCache = none) :
    (check sg st t).1 = true ↔ sg.pfx ++ t ∈ tableNames st := by
  unfold check
  rw [tablesList_fst_of_none sg st h]
  constructor
  · intro hc
    exact (mem_listing_iff _ _ _).mp (List.elem_iff.mp hc)
  · intro hm
    exact List.elem_iff.mpr ((mem_listing_iff _ _ _).mpr hm)

/-! ## Claim theorems -/

/-- The four native types in the image of the forward mapping (the keys of
the reverse mapping). -/
def mappedNativeTypes : List SQLType :=
  [SQLType.TEXT, SQLType.INTEGER, SQLType.FLOAT, SQLType.BOOLEAN]

/-- **C2.** For every supported logical type in `{string, integer, number,
boolean}`, converting it to its native column type and converting that
native type back yields the same logical type, and the mapping is a
bijection over this subset: the native images of the four logical types
are pairwise distinct and the logical images of the four native types are
pairwise distinct (so no two logical types share a native type and no two
native types share a logical type). -/
theorem type_mapping_bijective :
    supportedTypes.map (fun t => (convert_type t).bind restore_type)
        = supportedTypes.map some
    ∧ mappedNativeTypes.map (fun n => (restore_type n).bind convert_type)
        = mappedNativeTypes.map some
    ∧ (supportedTypes.map convert_type).Nodup
    ∧ (mappedNativeTypes.map restore_type).Nodup := by
  decide

/-- **C3.** `create` on an existing table raises the already-exists
`RuntimeError`, `delete` on a non-existent table raises the not-existent
`RuntimeError`, and `describe` of a table absent from the store fails with
the reflection's not-found error; in each failing case the error is
surfaced to the caller and the store comes back unmutated. -/
theorem lifecycle_conflict_errors (sg : Storage) (st : Store) (t₁ t₂ t₃ : String)
    (sch : Schema)
    (h₁ : (check sg st t₁).1 = true)
    (h₂ : (check sg st t₂).1 = false)
    (h₃ : reflectTable st (sg.pfx ++ t₃) = none) :
    (create sg st t₁ sch).2 = (st, some ("Table \"" ++ t₁ ++ "\" is already existent."))
    ∧ (delete sg st t₂).2 = (st, some ("Table \"" ++ reprStorage sg ++ "\" is not existent."))
    ∧ describe sg st t₃ = .error ("Table " ++ sg.pfx ++ t₃ ++ " is not found") := by
  refine ⟨?_, ?_, ?_⟩
  · simp [create, h₁]
  · simp [delete, h₂]
  · simp [describe, h₃]

/-- Witness for `lifecycle_conflict_errors` at a concrete handle and
store: `articles` exists, `missing` does not. -/
theorem lifecycle_conflict_errors_witness :
    (check (Storage.mk "eng" none "test_" none)
      (Store.mk [DBTable.mk "test_articles" [("id", SQLType.INTEGER)] []]) "articles").1 = true
    ∧ (check (Storage.mk "eng" none "test_" none)
      (Store.mk [DBTable.mk "test_articles" [("id", SQLType.INTEGER)] []]) "missing").1 = false
    ∧ reflectTable (Store.mk [DBTable.mk "test_articles" [("id", SQLType.INTEGER)] []])
        ((Storage.mk "eng" none "test_" none).pfx ++ "missing") = none
    ∧ ((create (Storage.mk "eng" none "test_" none)
          (Store.mk [DBTable.mk "test_articles" [("id", SQLType.INTEGER)] []]) "articles"
          (Schema.mk [])).2
        = (Store.mk [DBTable.mk "test_articles" [("id", SQLType.INTEGER)] []],
           some ("Table \"" ++ "articles" ++ "\" is already existent."))
      ∧ (delete (Storage.mk "eng" none "test_" none)
          (Store.mk [DBTable.mk "test_articles" [("id", SQLType.INTEGER)] []]) "missing").2
        = (Store.mk [DBTable.mk "test_articles" [("id", SQLType.INTEGER)] []],
           some ("Table \"" ++ reprStorage (Storage.mk "eng" none "test_" none) ++ "\" is not existent."))
      ∧ describe (Storage.mk "eng" none "test_" none)
          (Store.mk [DBTable.mk "test_articles" [("id", SQLType.INTEGER)] []]) "missing"
        = .error ("Table " ++ (Storage.mk "eng" none "test_" none).pfx ++ "missing" ++ " is not found")) :=
  ⟨by decide, by decide, by decide,
   lifecycle_conflict_errors (Storage.mk "eng" none "test_" none)
     (Store.mk [DBTable.mk "test_articles" [("id", SQLType.INTEGER)] []])
     "articles" "missing" "missing" (Schema.mk [])
     (by decide) (by decide) (by decide)⟩

/-- **C10.** The not-existent `RuntimeError` raised by `delete`
interpolates the textual representation of the `Storage` handle itself
(`'%s' % self`) rather than the offending table name — so the same message
is produced whichever table was missing — whereas `create`'s
already-exists error does name the table. -/
theorem delete_error_names_handle (sg : Storage) (st : Store) (t₁ t₂ tₑ : String)
    (sch : Schema)
    (h₁ : (check sg st t₁).1 = false)
    (h₂ : (check sg st t₂).1 = false)
    (hₑ : (check sg st tₑ).1 = true) :
    (delete sg st t₁).2.2 = some ("Table \"" ++ reprStorage sg ++ "\" is not existent.")
    ∧ (delete sg st t₁).2.2 = (delete sg st t₂).2.2
    ∧ (create sg st tₑ sch).2.2 = some ("Table \"" ++ tₑ ++ "\" is already existent.") := by
  refine ⟨?_, ?_, ?_⟩
  · simp [delete, h₁]
  · simp [delete, h₁, h₂]
  · simp [create, hₑ]

/-- Witness for `delete_error_names_handle`: two distinct missing tables
produce the identical handle-naming message, while `create` on the
existing `articles` names it. -/
theorem delete_error_names_handle_witness :
    (check (Storage.mk "eng" none "test_" none)
      (Store.mk [DBTable.mk "test_articles" [("id", SQLType.INTEGER)] []]) "missing_a").1 = false
    ∧ (check (Storage.mk "eng" none "test_" none)
      (Store.mk [DBTable.mk "test_articles" [("id", SQLType.INTEGER)] []]) "missing_b").1 = false
    ∧ (check (Storage.mk "eng" none "test_" none)
      (Store.mk [DBTable.mk "test_articles" [("id", SQLType.INTEGER)] []]) "articles").1 = true
    ∧ ((delete (Storage.mk "eng" none "test_" none)
          (Store.mk [DBTable.mk "test_articles" [("id", SQLType.INTEGER)] []]) "missing_a").2.2
        = some ("Table \"" ++ reprStorage (Storage.mk "eng" none "test_" none) ++ "\" is not existent.")
      ∧ (delete (Storage.mk "eng" none "test_" none)
          (Store.mk [DBTable.mk "test_articles" [("id", SQLType.INTEGER)] []]) "missing_a").2.2
        = (delete (Storage.mk "eng" none "test_" none)
          (Store.mk [DBTable.mk "test_articles" [("id", SQLType.INTEGER)] []]) "missing_b").2.2
      ∧ (create (Storage.mk "eng" none "test_" none)
          (Store.mk [DBTable.mk "test_articles" [("id", SQLType.INTEGER)] []]) "articles"
          (Schema.mk [])).2.2
        = some ("Table \"" ++ "articles" ++ "\" is already existent.")) :=
  ⟨by decide, by decide, by decide,
   delete_error_names_handle (Storage.mk "eng" none "test_" none)
     (Store.mk [DBTable.mk "test_articles" [("id", SQLType.INTEGER)] []])
     "missing_a" "missing_b" "articles" (Schema.mk [])
     (by decide) (by decide) (by decide)⟩

/-- **C4.** Every successful structural mutation invalidates the cached
table listing before returning (`self.__tables = None`), so a `create`
followed immediately by an existence check sees the table, and a `delete`
followed immediately by an existence check does not (the model's store
reflects the mutation). -/
theorem mutation_invalidates_cache
    (sgc : Storage) (stc : Store) (tc : String) (schc : Schema)
    (sgc' : Storage) (stc' : Store)
    (sgd : Storage) (std : Store) (td : String) (sgd' : Storage) (std' : Store)
    (hc : create sgc stc tc schc = (sgc', stc', none))
    (hd : delete sgd std td = (sgd', std', none)) :
    sgc'.tablesCache = none ∧ (check sgc' stc' tc).1 = true
    ∧ sgd'.tablesCache = none ∧ (check sgd' std' td).1 = false := by
  cases hci : (check sgc stc tc).1 with
  | true => simp [create, hci] at hc
  | false =>
    cases hcs : convert_schema schc with
    | error e => simp [create, hci, hcs] at hc
    | ok cols =>
      simp only [create, hci, hcs, Bool.false_eq_true, if_false, Prod.mk.injEq] at hc
      obtain ⟨hsg, hst, -⟩ := hc
      cases hdi : (check sgd std td).1 with
      | false => simp [delete, hdi] at hd
      | true =>
        simp only [delete, hdi, if_true, Prod.mk.injEq] at hd
        obtain ⟨hsgd, hstd, -⟩ := hd
        refine ⟨?_, ?_, ?_, ?_⟩
        · rw [← hsg]
        · have hcache : sgc'.tablesCache = none := by rw [← hsg]
          have hpfx : sgc'.pfx = sgc.pfx := by
            rw [← hsg]
            exact tablesList_snd_pfx sgc stc
          rw [check_fst_iff sgc' stc' tc hcache, hpfx, ← hst]
          simp [tableNames]
        · rw [← hsgd]
        · have hcache : sgd'.tablesCache = none := by rw [← hsgd]
          have hpfx : sgd'.pfx = sgd.pfx := by
            rw [← hsgd]
            exact tablesList_snd_pfx sgd std
          cases hval : (check sgd' std' td).1 with
          | false => rfl
          | true =>
            exfalso
            have hmem := (check_fst_iff sgd' std' td hcache).mp hval
            rw [hpfx, ← hstd] at hmem
            simp only [tableNames, List.mem_map, List.mem_filter] at hmem
            rcases hmem with ⟨tb, ⟨-, hne⟩, hnm⟩
            simp only [decide_eq_true_eq] at hne
            exact hne hnm

/-- Witness for `mutation_invalidates_cache`: a concrete `create` on an
empty store and a concrete `delete` of the only table. -/
theorem mutation_invalidates_cache_witness :
    create (Storage.mk "eng" none "test_" none) (Store.mk []) "bucket"
        (Schema.mk [SField.mk "id" "integer"])
      = (Storage.mk "eng" none "test_" none,
         Store.mk [DBTable.mk "test_bucket" [("id", SQLType.INTEGER)] []], none)
    ∧ delete (Storage.mk "eng" none "test_" (some ["bucket"]))
        (Store.mk [DBTable.mk "test_bucket" [("id", SQLType.INTEGER)] []]) "bucket"
      = (Storage.mk "eng" none "test_" none, Store.mk [], none)
    ∧ ((Storage.mk "eng" none "test_" none).tablesCache = none
      ∧ (check (Storage.mk "eng" none "test_" none)
          (Store.mk [DBTable.mk "test_bucket" [("id", SQLType.INTEGER)] []]) "bucket").1 = true
      ∧ (Storage.mk "eng" none "test_" none).tablesCache = none
      ∧ (check (Storage.mk "eng" none "test_" none) (Store.mk []) "bucket").1 = false) :=
  ⟨by decide, by decide,
   mutation_invalidates_cache
     (Storage.mk "eng" none "test_" none) (Store.mk []) "bucket"
     (Schema.mk [SField.mk "id" "integer"])
     (Storage.mk "eng" none "test_" none)
     (Store.mk [DBTable.mk "test_bucket" [("id", SQLType.INTEGER)] []])
     (Storage.mk "eng" none "test_" (some ["bucket"]))
     (Store.mk [DBTable.mk "test_bucket" [("id", SQLType.INTEGER)] []]) "bucket"
     (Storage.mk "eng" none "test_" none) (Store.mk [])
     (by decide) (by decide)⟩

/-- **C8.** The table listing computed from the store contains exactly the
store names that start with the configured prefix, each with the leading
prefix removed and nothing else altered (so a logical name is listed iff
`pfx ++ name` is a store name, and names lacking the prefix never appear);
the computed listing is saved in the cache, and a populated cache is
returned as-is until the next invalidation. -/
theorem listing_strips_configured_prefix (sg : Storage) (st : Store)
    (sgc : Storage) (l : List String)
    (h : sg.tablesCache = none) (hc : sgc.tablesCache = some l) :
    (tablesList sg st).1 =
      ((tableNames st).filter (fun n => pyStartswith n sg.pfx)).map (stripLead sg.pfx)
    ∧ (∀ x, x ∈ (tablesList sg st).1 ↔ sg.pfx ++ x ∈ tableNames st)
    ∧ (tablesList sg st).2.tablesCache = some ((tablesList sg st).1)
    ∧ tablesList sgc st = (l, sgc) := by
  refine ⟨?_, ?_, tablesList_snd_cache sg st, tablesList_of_some sgc st l hc⟩
  · rw [tablesList_fst_of_none sg st h]
    refine List.map_congr_left ?_
    intro n hn
    exact pyReplaceFirst_eq_stripLead n sg.pfx (List.mem_filter.mp hn).2
  · intro x
    rw [tablesList_fst_of_none sg st h]
    exact mem_listing_iff sg.pfx (tableNames st) x

/-- Witness for `listing_strips_configured_prefix`: a store holding
`test_articles`, `other` and `test_comments` under prefix `test_`, and a
handle with a populated cache. -/
theorem listing_strips_configured_prefix_witness :
    (Storage.mk "eng" none "test_" none).tablesCache = none
    ∧ (Storage.mk "eng" none "test_" (some ["cached"])).tablesCache = some ["cached"]
    ∧ ((tablesList (Storage.mk "eng" none "test_" none)
          (Store.mk [DBTable.mk "test_articles" [] [], DBTable.mk "other" [] [],
            DBTable.mk "test_comments" [] []])).1 =
        ((tableNames (Store.mk [DBTable.mk "test_articles" [] [], DBTable.mk "other" [] [],
            DBTable.mk "test_comments" [] []])).filter
          (fun n => pyStartswith n (Storage.mk "eng" none "test_" none).pfx)).map
          (stripLead (Storage.mk "eng" none "test_" none).pfx)
      ∧ (∀ x, x ∈ (tablesList (Storage.mk "eng" none "test_" none)
            (Store.mk [DBTable.mk "test_articles" [] [], DBTable.mk "other" [] [],
              DBTable.mk "test_comments" [] []])).1
          ↔ (Storage.mk "eng" none "test_" none).pfx ++ x ∈
            tableNames (Store.mk [DBTable.mk "test_articles" [] [], DBTable.mk "other" [] [],
              DBTable.mk "test_comments" [] []]))
      ∧ (tablesList (Storage.mk "eng" none "test_" none)
            (Store.mk [DBTable.mk "test_articles" [] [], DBTable.mk "other" [] [],
              DBTable.mk "test_comments" [] []])).2.tablesCache =
          some ((tablesList (Storage.mk "eng" none "test_" none)
            (Store.mk [DBTable.mk "test_articles" [] [], DBTable.mk "other" [] [],
              DBTable.mk "test_comments" [] []])).1)
      ∧ tablesList (Storage.mk "eng" none "test_" (some ["cached"]))
            (Store.mk [DBTable.mk "test_articles" [] [], DBTable.mk "other" [] [],
              DBTable.mk "test_comments" [] []])
          = (["cached"], Storage.mk "eng" none "test_" (some ["cached"]))) :=
  ⟨by decide, by decide,
   listing_strips_configured_prefix (Storage.mk "eng" none "test_" none)
     (Store.mk [DBTable.mk "test_articles" [] [], DBTable.mk "other" [] [],
       DBTable.mk "test_comments" [] []])
     (Storage.mk "eng" none "test_" (some ["cached"])) ["cached"]
     (by decide) (by decide)⟩

theorem find?_append_right {α : Type} (p : α → Bool) (l₁ l₂ : List α)
    (h : ∀ a ∈ l₁, p a = false) : (l₁ ++ l₂).find? p = l₂.find? p := by
  induction l₁ with
  | nil => rfl
  | cons a l ih =>
    have hpa : p a = false := h a (List.mem_cons_self a l)
    rw [List.cons_append, List.find?_cons_of_neg _ (by simp [hpa])]
    exact ih (fun x hx => h x (List.mem_cons_of_mem a hx))

/-- Restoring the columns produced by converting a schema made only of
supported types recovers the schema's fields exactly. -/
theorem restore_convert_aux :
    ∀ (fs : List SField), (∀ f ∈ fs, f.type ∈ supportedTypes) →
      ∀ cols, mapME (fun f =>
          match convert_type f.type with
          | some n => .ok (f.name, n)
          | none => .error ("Type " ++ f.type ++ " is not supported")) fs = .ok cols →
        mapME (fun c =>
          match restore_type c.2 with
          | some t => .ok (SField.mk c.1 t)
          | none => .error ("Type " ++ sqlTypeName c.2 ++ " is not supported")) cols
          = .ok fs := by
  intro fs
  induction fs with
  | nil =>
    intro _ cols hc
    simp only [mapME] at hc
    injection hc with hc
    subst hc
    rfl
  | cons f fs ih =>
    intro h cols hc
    have hmem := h f (List.mem_cons_self f fs)
    have hconv : ∃ n, convert_type f.type = some n ∧ restore_type n = some f.type := by
      simp only [supportedTypes, List.mem_cons, List.not_mem_nil, or_false] at hmem
      rcases hmem with h1 | h1 | h1 | h1 <;> rw [h1] <;> exact ⟨_, rfl, rfl⟩
    rcases hconv with ⟨n, hn, hr⟩
    simp only [mapME, hn] at hc
    cases hrest : mapME (fun f =>
        match convert_type f.type with
        | some n => .ok (f.name, n)
        | none => .error ("Type " ++ f.type ++ " is not supported")) fs with
    | error e => rw [hrest] at hc; exact absurd hc (by simp)
    | ok cols' =>
      rw [hrest] at hc
      injection hc with hc
      subst hc
      simp only [mapME, hr]
      rw [ih (fun x hx => h x (List.mem_cons_of_mem f hx)) cols' hrest]

/-- **C5.** For a schema whose field types all lie in the bijective subset
of the mapping, creating a table from it (through a handle whose listing
is fetched fresh) and then describing that table reproduces exactly the
original field names, in order, each with its original logical type. -/
theorem create_describe_roundtrip (sg : Storage) (st : Store) (t : String) (sch : Schema)
    (sg' : Storage) (st' : Store)
    (hcache : sg.tablesCache = none)
    (htypes : ∀ f ∈ sch.fields, f.type ∈ supportedTypes)
    (hok : create sg st t sch = (sg', st', none)) :
    describe sg' st' t = .ok sch := by
  cases hci : (check sg st t).1 with
  | true => simp [create, hci] at hok
  | false =>
    cases hcs : convert_schema sch with
    | error e => simp [create, hci, hcs] at hok
    | ok cols =>
      simp only [create, hci, hcs, Bool.false_eq_true, if_false, Prod.mk.injEq] at hok
      obtain ⟨hsg, hst, -⟩ := hok
      have hpfx : sg'.pfx = sg.pfx := by
        rw [← hsg]
        exact tablesList_snd_pfx sg st
      have hnotin : sg.pfx ++ t ∉ tableNames st := by
        intro hmem
        rw [← check_fst_iff sg st t hcache] at hmem
        rw [hci] at hmem
        cases hmem
      have hnone : ∀ tb ∈ st.tables, (decide (tb.name = sg.pfx ++ t)) = false := by
        intro tb htb
        refine decide_eq_false ?_
        intro heq
        exact hnotin (heq ▸ List.mem_map_of_mem (fun tb => tb.name) htb)
      unfold describe
      rw [hpfx, ← hst]
      unfold reflectTable
      rw [show ({ st with tables := st.tables ++ [DBTable.mk (sg.pfx ++ t) cols []] } : Store).tables
          = st.tables ++ [DBTable.mk (sg.pfx ++ t) cols []] from rfl]
      rw [find?_append_right _ st.tables _ hnone]
      rw [List.find?_cons_of_pos _ (by simp)]
      show restore_schema (DBTable.mk (sg.pfx ++ t) cols []).columns = Except.ok sch
      unfold restore_schema
      rw [restore_convert_aux sch.fields htypes cols hcs]

/-- Witness for `create_describe_roundtrip`: creating a four-column table
covering all four supported logical types and describing it back. -/
theorem create_describe_roundtrip_witness :
    (Storage.mk "eng" none "test_" none).tablesCache = none
    ∧ (∀ f ∈ (Schema.mk [SField.mk "id" "integer", SField.mk "comment" "string",
        SField.mk "rating" "number", SField.mk "good" "boolean"]).fields,
        f.type ∈ supportedTypes)
    ∧ create (Storage.mk "eng" none "test_" none) (Store.mk []) "articles"
        (Schema.mk [SField.mk "id" "integer", SField.mk "comment" "string",
          SField.mk "rating" "number", SField.mk "good" "boolean"])
      = (Storage.mk "eng" none "test_" none,
         Store.mk [DBTable.mk "test_articles"
           [("id", SQLType.INTEGER), ("comment", SQLType.TEXT),
            ("rating", SQLType.FLOAT), ("good", SQLType.BOOLEAN)] []], none)
    ∧ describe (Storage.mk "eng" none "test_" none)
        (Store.mk [DBTable.mk "test_articles"
          [("id", SQLType.INTEGER), ("comment", SQLType.TEXT),
           ("rating", SQLType.FLOAT), ("good", SQLType.BOOLEAN)] []]) "articles"
      = .ok (Schema.mk [SField.mk "id" "integer", SField.mk "comment" "string",
          SField.mk "rating" "number", SField.mk "good" "boolean"]) :=
  ⟨by decide, by decide, by decide,
   create_describe_roundtrip (Storage.mk "eng" none "test_" none) (Store.mk []) "articles"
     (Schema.mk [SField.mk "id" "integer", SField.mk "comment" "string",
       SField.mk "rating" "number", SField.mk "good" "boolean"])
     (Storage.mk "eng" none "test_" none)
     (Store.mk [DBTable.mk "test_articles"
       [("id", SQLType.INTEGER), ("comment", SQLType.TEXT),
        ("rating", SQLType.FLOAT), ("good", SQLType.BOOLEAN)] []])
     (by decide) (by decide) (by decide)⟩

/-- **C6.** `create` on a schema containing a field whose logical type is
outside the closed `{string, integer, number, boolean}` mapping raises
`TypeError` naming the (first) offending type and performs no store
mutation; `describe` of a table with a reflected column whose native type
is outside the reverse mapping fails as a whole with `TypeError` naming
the offending native type — the column is never silently skipped. -/
theorem unsupported_type_fatal
    (sg₁ : Storage) (st₁ : Store) (t₁ : String) (sch : Schema) (f₀ : SField)
    (sg₂ : Storage) (st₂ : Store) (t₂ : String) (tb : DBTable) (c₀ : String × SQLType)
    (hex : (check sg₁ st₁ t₁).1 = false)
    (hfind : sch.fields.find? (fun f => (convert_type f.type).isNone) = some f₀)
    (hrefl : reflectTable st₂ (sg₂.pfx ++ t₂) = some tb)
    (hcol : tb.columns.find? (fun c => (restore_type c.2).isNone) = some c₀) :
    (create sg₁ st₁ t₁ sch).2 = (st₁, some ("Type " ++ f₀.type ++ " is not supported"))
    ∧ describe sg₂ st₂ t₂ = .error ("Type " ++ sqlTypeName c₀.2 ++ " is not supported") := by
  constructor
  · have hcs : convert_schema sch = .error ("Type " ++ f₀.type ++ " is not supported") := by
      refine mapME_error_of_find _ _ (fun f => "Type " ++ f.type ++ " is not supported")
        ?_ ?_ sch.fields f₀ hfind
      · intro a ha
        rw [Option.isNone_iff_eq_none] at ha
        simp [ha]
      · intro a ha
        rcases Option.isSome_iff_exists.mp (by simp [Option.isNone_eq_false_iff] at ha; exact ha)
          with ⟨n, hn⟩
        exact ⟨(a.name, n), by simp [hn]⟩
    simp [create, hex, hcs]
  · have hrs : restore_schema tb.columns
        = .error ("Type " ++ sqlTypeName c₀.2 ++ " is not supported") := by
      have herr : mapME (fun c =>
          match restore_type c.2 with
          | some t => .ok (SField.mk c.1 t)
          | none => .error ("Type " ++ sqlTypeName c.2 ++ " is not supported")) tb.columns
          = .error ("Type " ++ sqlTypeName c₀.2 ++ " is not supported") := by
        refine mapME_error_of_find _ _
          (fun c => "Type " ++ sqlTypeName c.2 ++ " is not supported") ?_ ?_ tb.columns c₀ hcol
        · intro a ha
          rw [Option.isNone_iff_eq_none] at ha
          simp [ha]
        · intro a ha
          rcases Option.isSome_iff_exists.mp (by simp [Option.isNone_eq_false_iff] at ha; exact ha)
            with ⟨s, hs⟩
          exact ⟨SField.mk a.1 s, by simp [hs]⟩
      unfold restore_schema
      rw [herr]
    unfold describe
    rw [hrefl]
    exact hrs

/-- Witness for `unsupported_type_fatal`: `create` with a field of type
`any` (the repository's own bad-type test) and `describe` of a table
reflecting a `DATE` column. -/
theorem unsupported_type_fatal_witness :
    (check (Storage.mk "eng" none "test_bad_type_" none) (Store.mk []) "bad_type").1 = false
    ∧ (Schema.mk [SField.mk "bad_field" "any"]).fields.find?
        (fun f => (convert_type f.type).isNone) = some (SField.mk "bad_field" "any")
    ∧ reflectTable (Store.mk [DBTable.mk "test_dated" [("id", SQLType.INTEGER),
        ("when", SQLType.DATE)] []])
        ((Storage.mk "eng" none "test_" none).pfx ++ "dated")
      = some (DBTable.mk "test_dated" [("id", SQLType.INTEGER), ("when", SQLType.DATE)] [])
    ∧ (DBTable.mk "test_dated" [("id", SQLType.INTEGER), ("when", SQLType.DATE)] []).columns.find?
        (fun c => (restore_type c.2).isNone) = some ("when", SQLType.DATE)
    ∧ ((create (Storage.mk "eng" none "test_bad_type_" none) (Store.mk []) "bad_type"
          (Schema.mk [SField.mk "bad_field" "any"])).2
        = (Store.mk [], some ("Type " ++ (SField.mk "bad_field" "any").type ++ " is not supported"))
      ∧ describe (Storage.mk "eng" none "test_" none)
          (Store.mk [DBTable.mk "test_dated" [("id", SQLType.INTEGER),
            ("when", SQLType.DATE)] []]) "dated"
        = .error ("Type " ++ sqlTypeName SQLType.DATE ++ " is not supported")) :=
  ⟨by decide, by decide, by decide, by decide,
   unsupported_type_fatal (Storage.mk "eng" none "test_bad_type_" none) (Store.mk [])
     "bad_type" (Schema.mk [SField.mk "bad_field" "any"]) (SField.mk "bad_field" "any")
     (Storage.mk "eng" none "test_" none)
     (Store.mk [DBTable.mk "test_dated" [("id", SQLType.INTEGER), ("when", SQLType.DATE)] []])
     "dated" (DBTable.mk "test_dated" [("id", SQLType.INTEGER), ("when", SQLType.DATE)] [])
     ("when", SQLType.DATE)
     (by decide) (by decide) (by decide) (by decide)⟩

/-- **C7.** If any row of a batch fails to cast, `write` raises the cast
error and leaves the store exactly as it was: the implementation builds
the whole cast batch (`cdata`) before executing any INSERT, so no row of
the batch — including rows before the failing one — is committed. -/
theorem write_cast_failure_atomic (sg : Storage) (st : Store) (t : String)
    (data : List (List Value)) (sch : Schema) (r : List Value) (e : String)
    (hdesc : describe sg st t = .ok sch)
    (hr : r ∈ data) (herr : convert_row sch r = .error e) :
    (write sg st t data).1 = st ∧ (write sg st t data).2.isSome = true := by
  have hbatch : ∃ e', castBatch sch data = .error e' := by
    refine mapME_error_of_mem _ data r e hr ?_
    show (match convert_row sch r with
      | .error e => Except.error e
      | .ok cast => Except.ok (rowToKeyed sch cast)) = Except.error e
    rw [herr]
  rcases hbatch with ⟨e', hb⟩
  constructor
  · simp [write, hdesc, hb]
  · simp [write, hdesc, hb]

/-- Witness for `write_cast_failure_atomic`, mirroring the repository's
rollback test: two castable rows followed by `bad-value` leave the table
empty. -/
theorem write_cast_failure_atomic_witness :
    describe (Storage.mk "eng" none "test_" none)
      (Store.mk [DBTable.mk "test_bucket" [("id", SQLType.INTEGER)] []]) "bucket"
      = .ok (Schema.mk [SField.mk "id" "integer"])
    ∧ [Value.vstr "bad-value"] ∈ [[Value.vint 0], [Value.vint 1], [Value.vstr "bad-value"]]
    ∧ convert_row (Schema.mk [SField.mk "id" "integer"]) [Value.vstr "bad-value"]
      = .error "Value bad-value is not castable to integer"
    ∧ ((write (Storage.mk "eng" none "test_" none)
          (Store.mk [DBTable.mk "test_bucket" [("id", SQLType.INTEGER)] []]) "bucket"
          [[Value.vint 0], [Value.vint 1], [Value.vstr "bad-value"]]).1
        = Store.mk [DBTable.mk "test_bucket" [("id", SQLType.INTEGER)] []]
      ∧ (write (Storage.mk "eng" none "test_" none)
          (Store.mk [DBTable.mk "test_bucket" [("id", SQLType.INTEGER)] []]) "bucket"
          [[Value.vint 0], [Value.vint 1], [Value.vstr "bad-value"]]).2.isSome = true) :=
  ⟨rfl, by decide, rfl,
   write_cast_failure_atomic (Storage.mk "eng" none "test_" none)
     (Store.mk [DBTable.mk "test_bucket" [("id", SQLType.INTEGER)] []]) "bucket"
     [[Value.vint 0], [Value.vint 1], [Value.vstr "bad-value"]]
     (Schema.mk [SField.mk "id" "integer"]) [Value.vstr "bad-value"]
     "Value bad-value is not castable to integer"
     rfl (by decide) rfl⟩

/-- **C9.** Every raw row accepted by the row codec — positional sequence
or keyed mapping — is normalized into a canonical record keyed by the
schema's field names in schema field order, every value of which is the
result of a successful cast to its field's logical type; positional input
is zipped against schema field order, so position `i` is cast with field
`i`'s type and stored under field `i`'s name. -/
theorem castRow_canonical (sch : Schema) (raw : RawRow) (rec : List (String × Value))
    (hok : castRow sch raw = .ok rec) :
    rec.length = sch.fields.length
    ∧ rec.map Prod.fst = sch.fields.map SField.name
    ∧ (∀ (i : Nat) (h₁ : i < rec.length) (h₂ : i < sch.fields.length),
        ∃ v, castValue (sch.fields.get ⟨i, h₂⟩).type v = .ok (rec.get ⟨i, h₁⟩).2)
    ∧ (∀ vals, raw = RawRow.positional vals →
        vals.length = sch.fields.length
        ∧ (∀ (i : Nat) (h₁ : i < rec.length) (h₂ : i < sch.fields.length)
            (h₃ : i < vals.length),
            castValue (sch.fields.get ⟨i, h₂⟩).type (vals.get ⟨i, h₃⟩)
              = .ok (rec.get ⟨i, h₁⟩).2)) := by
  cases raw with
  | positional vals =>
    simp only [castRow] at hok
    cases hcr : convert_row sch vals with
    | error e => rw [hcr] at hok; exact absurd hok (by simp)
    | ok cast =>
      rw [hcr] at hok
      injection hok with hok
      subst hok
      unfold convert_row at hcr
      by_cases hlen : vals.length = sch.fields.length
      · rw [if_pos hlen] at hcr
        have hzlen : (sch.fields.zip vals).length = sch.fields.length := by
          simp [List.length_zip, hlen]
        have hclen : cast.length = sch.fields.length := by
          rw [mapME_length _ _ _ hcr, hzlen]
        have hreclen : (rowToKeyed sch cast).length = sch.fields.length := by
          simp [rowToKeyed, List.length_zip, hclen]
        have hpoint : ∀ (i : Nat) (h₁ : i < (rowToKeyed sch cast).length)
            (h₂ : i < sch.fields.length) (h₃ : i < vals.length),
            castValue (sch.fields.get ⟨i, h₂⟩).type (vals.get ⟨i, h₃⟩)
              = .ok ((rowToKeyed sch cast).get ⟨i, h₁⟩).2 := by
          intro i h₁ h₂ h₃
          have hzi : i < (sch.fields.zip vals).length := by rw [hzlen]; exact h₂
          have hci : i < cast.length := by rw [hclen]; exact h₂
          have hg := mapME_get _ (sch.fields.zip vals) cast hcr i hzi hci
          have hz : (sch.fields.zip vals).get ⟨i, hzi⟩
              = (sch.fields.get ⟨i, h₂⟩, vals.get ⟨i, h₃⟩) := by
            simp [List.get_eq_getElem, List.getElem_zip]
          rw [hz] at hg
          have hr : ((rowToKeyed sch cast).get ⟨i, h₁⟩).2 = cast.get ⟨i, hci⟩ := by
            simp [rowToKeyed, List.get_eq_getElem, List.getElem_zip]
          rw [hr]
          exact hg
        refine ⟨hreclen, ?_, ?_, ?_⟩
        · have : (sch.fields.map SField.name).length ≤ cast.length := by
            simp [hclen]
          simpa [rowToKeyed] using List.map_fst_zip _ cast this
        · intro i h₁ h₂
          refine ⟨vals.get ⟨i, by rw [hlen]; exact h₂⟩, ?_⟩
          exact hpoint i h₁ h₂ (by rw [hlen]; exact h₂)
        · intro vals' heq
          injection heq with heq
          subst heq
          exact ⟨hlen, hpoint⟩
      · rw [if_neg hlen] at hcr
        exact absurd hcr (by simp)
  | keyed fs =>
    simp only [castRow] at hok
    have hreclen : rec.length = sch.fields.length := mapME_length _ _ _ hok
    have hinv : ∀ (i : Nat) (h₁ : i < rec.length) (h₂ : i < sch.fields.length),
        (rec.get ⟨i, h₁⟩).1 = (sch.fields.get ⟨i, h₂⟩).name
        ∧ ∃ v, castValue (sch.fields.get ⟨i, h₂⟩).type v = .ok (rec.get ⟨i, h₁⟩).2 := by
      intro i h₁ h₂
      have hg := mapME_get _ sch.fields rec hok i h₂ h₁
      cases hl : lookupVal fs (sch.fields.get ⟨i, h₂⟩).name with
      | none =>
        rw [hl] at hg
        exact absurd hg (by simp)
      | some v =>
        rw [hl] at hg
        have hg' : (match castValue (sch.fields.get ⟨i, h₂⟩).type v with
            | Except.error e => Except.error e
            | Except.ok cv => Except.ok ((sch.fields.get ⟨i, h₂⟩).name, cv))
            = Except.ok (rec.get ⟨i, h₁⟩) := hg
        cases hc : castValue (sch.fields.get ⟨i, h₂⟩).type v with
        | error e => rw [hc] at hg'; exact absurd hg' (by simp)
        | ok cv =>
          rw [hc] at hg'
          injection hg' with hg'
          constructor
          · rw [← hg']
          · exact ⟨v, by rw [hc, ← hg']⟩
    refine ⟨hreclen, ?_, fun i h₁ h₂ => (hinv i h₁ h₂).2, ?_⟩
    · refine List.ext_getElem (by simp [hreclen]) ?_
      intro i hi₁ hi₂
      have h₁ : i < rec.length := by simpa using hi₁
      have h₂ : i < sch.fields.length := by simpa using hi₂
      have := (hinv i h₁ h₂).1
      simp only [List.get_eq_getElem] at this
      simpa using this
    · intro vals heq
      exact absurd heq (by simp)

/-- Witness for `castRow_canonical`: a positional row cast against a
two-field schema. -/
theorem castRow_canonical_witness :
    castRow (Schema.mk [SField.mk "name" "string", SField.mk "id" "integer"])
        (RawRow.positional [Value.vstr "joe", Value.vstr "17"])
      = .ok [("name", Value.vstr "joe"), ("id", Value.vint 17)]
    ∧ ([(("name" : String), Value.vstr "joe"), (("id" : String), Value.vint 17)].length
        = (Schema.mk [SField.mk "name" "string", SField.mk "id" "integer"]).fields.length
      ∧ [(("name" : String), Value.vstr "joe"), (("id" : String), Value.vint 17)].map Prod.fst
        = (Schema.mk [SField.mk "name" "string", SField.mk "id" "integer"]).fields.map SField.name
      ∧ (∀ (i : Nat)
          (h₁ : i < [(("name" : String), Value.vstr "joe"), (("id" : String), Value.vint 17)].length)
          (h₂ : i < (Schema.mk [SField.mk "name" "string", SField.mk "id" "integer"]).fields.length),
          ∃ v, castValue ((Schema.mk [SField.mk "name" "string",
              SField.mk "id" "integer"]).fields.get ⟨i, h₂⟩).type v
            = .ok ([(("name" : String), Value.vstr "joe"),
                (("id" : String), Value.vint 17)].get ⟨i, h₁⟩).2)
      ∧ (∀ vals, RawRow.positional [Value.vstr "joe", Value.vstr "17"] = RawRow.positional vals →
          vals.length = (Schema.mk [SField.mk "name" "string", SField.mk "id" "integer"]).fields.length
          ∧ (∀ (i : Nat)
              (h₁ : i < [(("name" : String), Value.vstr "joe"), (("id" : String), Value.vint 17)].length)
              (h₂ : i < (Schema.mk [SField.mk "name" "string", SField.mk "id" "integer"]).fields.length)
              (h₃ : i < vals.length),
              castValue ((Schema.mk [SField.mk "name" "string",
                  SField.mk "id" "integer"]).fields.get ⟨i, h₂⟩).type (vals.get ⟨i, h₃⟩)
                = .ok ([(("name" : String), Value.vstr "joe"),
                    (("id" : String), Value.vint 17)].get ⟨i, h₁⟩).2))) :=
  ⟨rfl,
   castRow_canonical (Schema.mk [SField.mk "name" "string", SField.mk "id" "integer"])
     (RawRow.positional [Value.vstr "joe", Value.vstr "17"])
     [("name", Value.vstr "joe"), ("id", Value.vint 17)] rfl⟩

theorem upsertBatch_length (keys : List String) (auto : Bool) :
    ∀ (rows : List (List (String × Value))) (st : UpsertState),
      (upsertBatch keys auto st rows).2.length = rows.length := by
  intro rows
  induction rows with
  | nil => intro st; rfl
  | cons r rs ih =>
    intro st
    simp only [upsertBatch, List.length_cons]
    rw [ih]

theorem upsertBatch_ids_none (keys : List String) :
    ∀ (rows : List (List (String × Value))) (st : UpsertState),
      ∀ o ∈ (upsertBatch keys false st rows).2, o.updated_id = none := by
  intro rows
  induction rows with
  | nil => intro st o ho; exact absurd ho (by simp [upsertBatch])
  | cons r rs ih =>
    intro st o ho
    simp only [upsertBatch, List.mem_cons] at ho
    rcases ho with rfl | ho
    · unfold upsertRow
      cases hm : findMatch keys st.rows r <;> simp [hm]
    · exact ih _ o ho

theorem upsertBatch_insertedIds (keys : List String) :
    ∀ (rows : List (List (String × Value))) (st : UpsertState),
      (∀ n ∈ insertedIds (upsertBatch keys true st rows).2, st.counter < n)
      ∧ List.Chain' (· < ·) (insertedIds (upsertBatch keys true st rows).2) := by
  intro rows
  induction rows with
  | nil => intro st; simp [upsertBatch, insertedIds]
  | cons r rs ih =>
    intro st
    simp only [upsertBatch]
    cases hm : findMatch keys st.rows r with
    | some sr =>
      have hstep : upsertRow keys true st r
          = ({ st with rows := st.rows.map (fun sr' =>
              if keyProj keys sr'.fields = keyProj keys r then updateNonKey keys r sr' else sr') },
             WrittenRowInfo.mk true sr.rid) := by
        unfold upsertRow
        rw [hm]
        simp
      rw [hstep]
      have hids : insertedIds (WrittenRowInfo.mk true sr.rid ::
          (upsertBatch keys true { st with rows := st.rows.map (fun sr' =>
            if keyProj keys sr'.fields = keyProj keys r then updateNonKey keys r sr' else sr') } rs).2)
          = insertedIds ((upsertBatch keys true { st with rows := st.rows.map (fun sr' =>
            if keyProj keys sr'.fields = keyProj keys r then updateNonKey keys r sr' else sr') } rs).2) := by
        simp [insertedIds]
      rw [hids]
      exact ih _
    | none =>
      have hstep : upsertRow keys true st r
          = (UpsertState.mk (st.rows ++ [StoredRow.mk r (some (st.counter + 1))]) (st.counter + 1),
             WrittenRowInfo.mk false (some (st.counter + 1))) := by
        unfold upsertRow
        rw [hm]
        simp
      rw [hstep]
      have hrec := ih (UpsertState.mk (st.rows ++ [StoredRow.mk r (some (st.counter + 1))])
        (st.counter + 1))
      have hids : insertedIds (WrittenRowInfo.mk false (some (st.counter + 1)) ::
          (upsertBatch keys true (UpsertState.mk
            (st.rows ++ [StoredRow.mk r (some (st.counter + 1))]) (st.counter + 1)) rs).2)
          = (st.counter + 1) :: insertedIds ((upsertBatch keys true (UpsertState.mk
            (st.rows ++ [StoredRow.mk r (some (st.counter + 1))]) (st.counter + 1)) rs).2) := by
        simp [insertedIds]
      rw [hids]
      constructor
      · intro n hn
        rcases List.mem_cons.mp hn with rfl | hn
        · exact Nat.lt_succ_self st.counter
        · exact Nat.lt_trans (Nat.lt_succ_self st.counter) (hrec.1 n hn)
      · refine List.chain'_cons'.mpr ⟨?_, hrec.2⟩
        intro b hb
        exact hrec.1 b (List.mem_of_mem_head? hb)

/-- **C1.** Each row of a batch handed to the upsert write path with a
non-empty key set produces exactly one outcome: when a stored row's cast
key projection equals the incoming row's key projection, the matching
stored row(s) have their non-key fields updated in place (no insertion)
and the outcome reports `updated=true` with the existing identity;
otherwise the row is inserted with the next counter value and the outcome
reports `updated=false` with that newly assigned identity, and within a
batch the newly assigned identities are strictly increasing; with no
identity column configured every outcome's identity is `None`. -/
theorem upsert_outcome_dichotomy (keys : List String) (auto : Bool) (st : UpsertState)
    (rows : List (List (String × Value))) (hk : keys ≠ []) :
    (upsertBatch keys auto st rows).2.length = rows.length
    ∧ (∀ (st' : UpsertState) (r : List (String × Value)) (sr : StoredRow),
        findMatch keys st'.rows r = some sr →
        (upsertRow keys auto st' r).2 = WrittenRowInfo.mk true (if auto then sr.rid else none)
        ∧ (upsertRow keys auto st' r).1.rows.length = st'.rows.length
        ∧ (upsertRow keys auto st' r).1.rows = st'.rows.map (fun sr' =>
            if keyProj keys sr'.fields = keyProj keys r then updateNonKey keys r sr' else sr'))
    ∧ (∀ (st' : UpsertState) (r : List (String × Value)),
        findMatch keys st'.rows r = none →
        (upsertRow keys auto st' r).2
          = WrittenRowInfo.mk false (if auto then some (st'.counter + 1) else none)
        ∧ (upsertRow keys auto st' r).1.rows
          = st'.rows ++ [StoredRow.mk r (if auto then some (st'.counter + 1) else none)])
    ∧ (auto = false → ∀ o ∈ (upsertBatch keys auto st rows).2, o.updated_id = none)
    ∧ (auto = true → List.Chain' (· < ·) (insertedIds (upsertBatch keys auto st rows).2)) := by
  refine ⟨upsertBatch_length keys auto rows st, ?_, ?_, ?_, ?_⟩
  · intro st' r sr hm
    unfold upsertRow
    rw [hm]
    exact ⟨rfl, by simp, rfl⟩
  · intro st' r hm
    unfold upsertRow
    rw [hm]
    exact ⟨rfl, rfl⟩
  · intro hauto
    subst hauto
    exact upsertBatch_ids_none keys rows st
  · intro hauto
    subst hauto
    exact (upsertBatch_insertedIds keys rows st).2

/-- Witness for `upsert_outcome_dichotomy`: key set `[person_id]`,
auto-increment configured, an empty table, and a two-row batch. -/
theorem upsert_outcome_dichotomy_witness :
    (["person_id"] ≠ ([] : List String))
    ∧ ((upsertBatch ["person_id"] true (UpsertState.mk [] 0)
          [[(("person_id" : String), Value.vint 1), (("color" : String), Value.vstr "red")],
           [(("person_id" : String), Value.vint 2), (("color" : String), Value.vstr "blue")]]).2.length
        = [[(("person_id" : String), Value.vint 1), (("color" : String), Value.vstr "red")],
           [(("person_id" : String), Value.vint 2), (("color" : String), Value.vstr "blue")]].length
      ∧ (∀ (st' : UpsertState) (r : List (String × Value)) (sr : StoredRow),
          findMatch ["person_id"] st'.rows r = some sr →
          (upsertRow ["person_id"] true st' r).2
            = WrittenRowInfo.mk true (if true then sr.rid else none)
          ∧ (upsertRow ["person_id"] true st' r).1.rows.length = st'.rows.length
          ∧ (upsertRow ["person_id"] true st' r).1.rows = st'.rows.map (fun sr' =>
              if keyProj ["person_id"] sr'.fields = keyProj ["person_id"] r
              then updateNonKey ["person_id"] r sr' else sr'))
      ∧ (∀ (st' : UpsertState) (r : List (String × Value)),
          findMatch ["person_id"] st'.rows r = none →
          (upsertRow ["person_id"] true st' r).2
            = WrittenRowInfo.mk false (if true then some (st'.counter + 1) else none)
          ∧ (upsertRow ["person_id"] true st' r).1.rows
            = st'.rows ++ [StoredRow.mk r (if true then some (st'.counter + 1) else none)])
      ∧ (true = false →
          ∀ o ∈ (upsertBatch ["person_id"] true (UpsertState.mk [] 0)
            [[(("person_id" : String), Value.vint 1), (("color" : String), Value.vstr "red")],
             [(("person_id" : String), Value.vint 2), (("color" : String), Value.vstr "blue")]]).2,
            o.updated_id = none)
      ∧ (true = true →
          List.Chain' (· < ·) (insertedIds (upsertBatch ["person_id"] true (UpsertState.mk [] 0)
            [[(("person_id" : String), Value.vint 1), (("color" : String), Value.vstr "red")],
             [(("person_id" : String), Value.vint 2), (("color" : String), Value.vstr "blue")]]).2))) :=
  ⟨by decide,
   upsert_outcome_dichotomy ["person_id"] true (UpsertState.mk [] 0)
     [[(("person_id" : String), Value.vint 1), (("color" : String), Value.vstr "red")],
      [(("person_id" : String), Value.vint 2), (("color" : String), Value.vstr "blue")]]
     (by decide)⟩
